import Mathlib

/- Shallow embedding of the global coordination layer of the conduit
homeserver (`src/database/globals.rs`) and of the typing endpoint
(`src/client_server/typing.rs`).

Modelling conventions:
* `BTreeMap` is modelled as an association list with first-match lookup and
  overwrite-on-insert; `extend` folds `insert` over the new entries, so a
  later entry for the same key overwrites an earlier one, exactly as
  `BTreeMap::extend` does.
* Bytes stored in the key-value store for a trust record are modelled as
  either a faithful encoding of a record (`StoredBytes.good`, standing for
  `serde_json::to_vec`, which `serde_json::from_slice` decodes back) or
  bytes that fail to deserialize (`StoredBytes.bad`).
* The storage primitives `Tree::get` / `Tree::insert` / `Tree::remove` are
  modelled as infallible map operations; the `Result` layer of the Rust
  functions is kept, with storage treated as reliable, so the only error
  paths in the model are the ones the code itself constructs. -/

namespace Conduit

/-- Association-list finite map with first-match lookup, modelling
`BTreeMap` lookup. -/
def alookup {K V : Type} [DecidableEq K] : List (K × V) → K → Option V
  | [], _ => none
  | p :: rest, k => if k = p.1 then some p.2 else alookup rest k

/-- Overwrite-or-append insertion, modelling `BTreeMap::insert`: the entry
for an existing key is replaced in place, a fresh key is appended. -/
def ainsert {K V : Type} [DecidableEq K] : List (K × V) → K → V → List (K × V)
  | [], k, v => [(k, v)]
  | p :: rest, k, v => if k = p.1 then (k, v) :: rest else p :: ainsert rest k v

/-- Fold of `ainsert` over a list of new entries, modelling
`BTreeMap::extend`: an entry from `news` overwrites an existing entry with
the same key. -/
def aextend {K V : Type} [DecidableEq K] (m : List (K × V)) (news : List (K × V)) :
    List (K × V) :=
  news.foldl (fun acc p => ainsert acc p.1 p.2) m

/-- Key membership in an association-list map. -/
def containsKey {K V : Type} [DecidableEq K] (m : List (K × V)) (k : K) : Bool :=
  (alookup m k).isSome

/-- The keys of the map are pairwise distinct, as they are in a real
`BTreeMap`. -/
def nodupKeys {K V : Type} (m : List (K × V)) : Prop :=
  (m.map Prod.fst).Nodup

instance nodupKeysDecidable {K V : Type} [DecidableEq K] (m : List (K × V)) :
    Decidable (nodupKeys m) :=
  inferInstanceAs (Decidable (m.map Prod.fst).Nodup)

theorem alookup_ainsert_self {K V : Type} [DecidableEq K]
    (m : List (K × V)) (k : K) (v : V) :
    alookup (ainsert m k v) k = some v := by
  induction m with
  | nil => simp [ainsert, alookup]
  | cons p rest ih =>
    by_cases h : k = p.1 <;> simp [ainsert, alookup, h, ih]

theorem alookup_ainsert_ne {K V : Type} [DecidableEq K]
    (m : List (K × V)) (k k2 : K) (v : V) (h : k2 ≠ k) :
    alookup (ainsert m k v) k2 = alookup m k2 := by
  induction m with
  | nil => simp [ainsert, alookup, h]
  | cons p rest ih =>
    by_cases hk : k = p.1
    · subst hk
      simp [ainsert, alookup, h]
    · by_cases hk2 : k2 = p.1 <;> simp [ainsert, alookup, hk, hk2, ih]

theorem containsKey_ainsert_iff {K V : Type} [DecidableEq K]
    (m : List (K × V)) (k k2 : K) (v : V) :
    containsKey (ainsert m k v) k2 = true ↔ (k2 = k ∨ containsKey m k2 = true) := by
  by_cases h : k2 = k
  · subst h
    simp [containsKey, alookup_ainsert_self]
  · simp [containsKey, alookup_ainsert_ne m k k2 v h, h]

theorem containsKey_aextend_mono {K V : Type} [DecidableEq K]
    (news m : List (K × V)) (k : K) (h : containsKey m k = true) :
    containsKey (aextend m news) k = true := by
  induction news generalizing m with
  | nil => simpa [aextend] using h
  | cons p rest ih =>
    have h2 : containsKey (ainsert m p.1 p.2) k = true :=
      (containsKey_ainsert_iff m p.1 k p.2).mpr (Or.inr h)
    simpa [aextend] using ih (ainsert m p.1 p.2) h2

theorem containsKey_aextend_iff {K V : Type} [DecidableEq K]
    (news m : List (K × V)) (k : K) :
    containsKey (aextend m news) k = true ↔
      (containsKey m k = true ∨ containsKey news k = true) := by
  induction news generalizing m with
  | nil => simp [aextend, containsKey, alookup]
  | cons p rest ih =>
    have step : aextend m (p :: rest) = aextend (ainsert m p.1 p.2) rest := by
      simp [aextend]
    have hcons : containsKey (p :: rest) k = true ↔ (k = p.1 ∨ containsKey rest k = true) := by
      by_cases h : k = p.1 <;> simp [containsKey, alookup, h]
    rw [step, ih (ainsert m p.1 p.2), containsKey_ainsert_iff m p.1 k p.2, hcons]
    tauto

theorem alookup_eq_none_of_not_mem {K V : Type} [DecidableEq K]
    (m : List (K × V)) (k : K) (h : k ∉ m.map Prod.fst) :
    alookup m k = none := by
  induction m with
  | nil => simp [alookup]
  | cons p rest ih =>
    simp only [List.map_cons, List.mem_cons] at h
    push_neg at h
    simp [alookup, h.1, ih h.2]

theorem alookup_aextend_of_lookup_none {K V : Type} [DecidableEq K]
    (news m : List (K × V)) (k : K) (h : alookup news k = none) :
    alookup (aextend m news) k = alookup m k := by
  induction news generalizing m with
  | nil => simp [aextend]
  | cons p rest ih =>
    have step : aextend m (p :: rest) = aextend (ainsert m p.1 p.2) rest := by
      simp [aextend]
    simp only [alookup] at h
    by_cases hk : k = p.1
    · simp [hk] at h
    · simp only [hk, if_false] at h
      rw [step, ih (ainsert m p.1 p.2) h, alookup_ainsert_ne m p.1 k p.2 hk]

theorem alookup_aextend_of_lookup_some {K V : Type} [DecidableEq K]
    (news m : List (K × V)) (k : K) (v : V)
    (hnd : nodupKeys news) (h : alookup news k = some v) :
    alookup (aextend m news) k = some v := by
  induction news generalizing m with
  | nil => simp [alookup] at h
  | cons p rest ih =>
    have step : aextend m (p :: rest) = aextend (ainsert m p.1 p.2) rest := by
      simp [aextend]
    simp only [nodupKeys, List.map_cons, List.nodup_cons] at hnd
    simp only [alookup] at h
    by_cases hk : k = p.1
    · simp only [hk, if_true] at h
      have hrest : alookup rest k = none := by
        apply alookup_eq_none_of_not_mem
        rw [hk]
        exact hnd.1
      rw [step, alookup_aextend_of_lookup_none rest (ainsert m p.1 p.2) k hrest, hk,
        alookup_ainsert_self]
      exact h
    · simp only [hk, if_false] at h
      rw [step]
      exact ih (ainsert m p.1 p.2) hnd.2 h

theorem alookup_map_val {K V W : Type} [DecidableEq K]
    (m : List (K × V)) (f : V → W) (k : K) :
    alookup (m.map fun p => (p.1, f p.2)) k = (alookup m k).map f := by
  induction m with
  | nil => simp [alookup]
  | cons p rest ih =>
    by_cases h : k = p.1 <;> simp [alookup, h, ih]

theorem map_fst_map_val {K V W : Type}
    (m : List (K × V)) (f : V → W) :
    ((m.map fun p => (p.1, f p.2)).map Prod.fst) = m.map Prod.fst := by
  induction m with
  | nil => simp
  | cons p rest ih => simp [ih]

theorem nodupKeys_map_val {K V W : Type}
    (m : List (K × V)) (f : V → W) (h : nodupKeys m) :
    nodupKeys (m.map fun p => (p.1, f p.2)) := by
  unfold nodupKeys
  rw [map_fst_map_val]
  exact h

/-- Model of `ruma::api::federation::discovery::VerifyKey`: a current
verify key (its base64 `key` material). -/
structure VerifyKey where
  key : String
  deriving DecidableEq, Repr

/-- Constructor matching `VerifyKey::new(key)`. -/
def VerifyKey.new (key : String) : VerifyKey := ⟨key⟩

/-- Model of `ruma::api::federation::discovery::OldVerifyKey`: an expired
verify key with the timestamp at which it expired. -/
structure OldVerifyKey where
  expired_ts : Nat
  key : String
  deriving DecidableEq, Repr

/-- Model of `ruma::api::federation::discovery::ServerSigningKeys`.  The
`verify_keys` and `old_verify_keys` `BTreeMap`s are association lists keyed
by the server signing key id; `valid_until_ts` is milliseconds since the
Unix epoch.  Signatures are irrelevant to the operations modelled here and
are omitted. -/
structure ServerSigningKeys where
  server_name : String
  verify_keys : List (String × VerifyKey)
  old_verify_keys : List (String × OldVerifyKey)
  valid_until_ts : Nat
  deriving DecidableEq, Repr

/-- Constructor matching `ServerSigningKeys::new(server_name, valid_until_ts)`:
both key maps start empty. -/
def ServerSigningKeys.new (origin : String) (ts : Nat) : ServerSigningKeys :=
  ⟨origin, [], [], ts⟩

/-- Bytes stored in the `server_signingkeys` tree for one origin: either a
faithful `serde_json` encoding of a record, or bytes that fail to
deserialize. -/
inductive StoredBytes where
  | good : ServerSigningKeys → StoredBytes
  | bad : StoredBytes
  deriving DecidableEq, Repr

/-- Model of `serde_json::from_slice::<ServerSigningKeys>(bytes).ok()`. -/
def decodeSigningKeys : StoredBytes → Option ServerSigningKeys
  | .good r => some r
  | .bad => none

/-- The `server_signingkeys` tree: origin bytes mapped to stored record
bytes. -/
def SigningKeyStore : Type := List (String × StoredBytes)

/-- Model of the database error values built by `Error::bad_database`. -/
inductive Error where
  | bad_database : String → Error
  deriving DecidableEq, Repr

/-- Record loading step of `Globals::add_signing_key` (globals.rs lines
277-284): the stored record for `origin`, decoded, or a fresh record
stamped with the current time `now` when the record is absent or its bytes
fail to deserialize (`.ok()` turns a decode failure into `None`). -/
def loadedSigningKeys (store : SigningKeyStore) (origin : String) (now : Nat) :
    ServerSigningKeys :=
  match (alookup store origin).bind decodeSigningKeys with
  | some keys => keys
  | none => ServerSigningKeys.new origin now

/-- Merge step of `Globals::add_signing_key` (globals.rs lines 286-293):
`verify_keys` and `old_verify_keys` of the fetched record are folded into
the loaded record with `BTreeMap::extend`; all other fields (including
`valid_until_ts`) keep the values of the loaded record. -/
def mergeSigningKeys (keys new_keys : ServerSigningKeys) : ServerSigningKeys :=
  { keys with
    verify_keys := aextend keys.verify_keys new_keys.verify_keys,
    old_verify_keys := aextend keys.old_verify_keys new_keys.old_verify_keys }

/-- Lookup-table step shared by `Globals::add_signing_key` (lines 300-307)
and `Globals::signing_keys_for` (lines 319-327): start from `verify_keys`
and extend with every historical key converted to a plain `VerifyKey`, so a
key id present in both maps ends up bound to the historical key. -/
def keysTable (keys : ServerSigningKeys) : List (String × VerifyKey) :=
  aextend keys.verify_keys
    (keys.old_verify_keys.map fun old => (old.1, VerifyKey.new old.2.key))

/-- Model of `Globals::add_signing_key` (globals.rs lines 271-308): load
the stored record (or a fresh one), extend it with the fetched keys,
persist the merged record, and return the updated store together with the
merged current + historical lookup table.  The Rust function returns
`Result`; with the storage collaborator modelled as reliable the function
always succeeds, so the `Except` layer is added by `add_signing_key`
below. -/
def addSigningKeyCore (store : SigningKeyStore) (origin : String) (now : Nat)
    (new_keys : ServerSigningKeys) : SigningKeyStore × List (String × VerifyKey) :=
  let keys := mergeSigningKeys (loadedSigningKeys store origin now) new_keys
  (ainsert store origin (StoredBytes.good keys), keysTable keys)

/-- Model of `Globals::add_signing_key` with its `Result` layer.  The only
fallible operations in the Rust function are the storage `get`/`insert`
calls, which the model treats as reliable. -/
def add_signing_key (store : SigningKeyStore) (origin : String) (now : Nat)
    (new_keys : ServerSigningKeys) :
    Except Error (SigningKeyStore × List (String × VerifyKey)) :=
  Except.ok (addSigningKeyCore store origin now new_keys)

/-- Model of `Globals::signing_keys_for` (globals.rs lines 310-331): the
merged current + historical table of the stored record, or an empty map
when the record is absent or its bytes fail to deserialize; the only
fallible operation is the storage `get`, modelled as reliable. -/
def signing_keys_for (store : SigningKeyStore) (origin : String) :
    Except Error (List (String × VerifyKey)) :=
  Except.ok
    (match (alookup store origin).bind decodeSigningKeys with
     | some keys => keysTable keys
     | none => [])

/-- One `add_signing_key` call in a sequence: its origin, the current time
observed during the call, and the fetched keys. -/
structure KeyFetch where
  origin : String
  now : Nat
  keys : ServerSigningKeys
  deriving DecidableEq, Repr

/-- State of the `server_signingkeys` tree after one `add_signing_key`
call. -/
def applyKeyFetch (store : SigningKeyStore) (c : KeyFetch) : SigningKeyStore :=
  (addSigningKeyCore store c.origin c.now c.keys).1

/-- State of the `server_signingkeys` tree after a sequence of
`add_signing_key` calls. -/
def applyKeyFetches (calls : List KeyFetch) (store : SigningKeyStore) :
    SigningKeyStore :=
  calls.foldl applyKeyFetch store

/-- Key id `k` is in the persisted trust record of `origin` (in its current
or historical key set), reading the record back through deserialization. -/
def hasSigningKeyId (store : SigningKeyStore) (origin k : String) : Bool :=
  match (alookup store origin).bind decodeSigningKeys with
  | some r => containsKey r.verify_keys k || containsKey r.old_verify_keys k
  | none => false

/-- Model of `slice::splitn(2, |&b| b == 0xff)` on a byte sequence: the
bytes before the first `0xff`, and — when a `0xff` occurs — everything
after it (later `0xff` bytes are not split off, because the limit is 2).
When no separator occurs, the second component is `none` and the iterator
yields only the whole slice. -/
def splitn2 : List Nat → List Nat × Option (List Nat)
  | [] => ([], none)
  | b :: rest =>
    if b = 255 then ([], some rest)
    else
      let r := splitn2 rest
      (b :: r.1, r.2)

/-- A UTF-8 continuation byte, `0x80..=0xBF`. -/
def utf8Cont (b : Nat) : Bool := 128 ≤ b && b ≤ 191

/-- Valid UTF-8, as checked by `String::from_utf8`: ASCII bytes, 2-byte
sequences `C2..DF`, 3-byte sequences `E0..EF` (excluding overlong `E0 80..`
and surrogate `ED A0..` ranges), and 4-byte sequences `F0..F4` (excluding
overlong `F0 80..` and out-of-range `F4 90..`). -/
def utf8Valid : List Nat → Bool
  | [] => true
  | b :: rest =>
    if b ≤ 127 then utf8Valid rest
    else if b < 194 then false
    else if b ≤ 223 then
      match rest with
      | b1 :: rest2 => utf8Cont b1 && utf8Valid rest2
      | [] => false
    else if b ≤ 239 then
      match rest with
      | b1 :: b2 :: rest3 =>
        (if b = 224 then decide (160 ≤ b1 && b1 ≤ 191 : Bool)
         else if b = 237 then decide (128 ≤ b1 && b1 ≤ 159 : Bool)
         else utf8Cont b1) && utf8Cont b2 && utf8Valid rest3
      | _ => false
    else if b ≤ 244 then
      match rest with
      | b1 :: b2 :: b3 :: rest4 =>
        (if b = 240 then decide (144 ≤ b1 && b1 ≤ 191 : Bool)
         else if b = 244 then decide (128 ≤ b1 && b1 ≤ 143 : Bool)
         else utf8Cont b1) && utf8Cont b2 && utf8Cont b3 && utf8Valid rest4
      | _ => false
    else false

/-- Model of `utils::string_from_bytes`, i.e. `String::from_utf8`: the
byte sequence itself when it is valid UTF-8 (strings are kept as their byte
sequences), and a failure otherwise. -/
def string_from_bytes (bs : List Nat) : Option (List Nat) :=
  if utf8Valid bs then some bs else none

/-- Model of `ruma::signatures::Ed25519KeyPair`: the DER bytes the pair was
decoded from and its version label. -/
structure Ed25519KeyPair where
  der : List Nat
  version : List Nat
  deriving DecidableEq, Repr

/-- Model of `Ed25519KeyPair::from_der(key, version)`, parameterised by a
predicate `derOk` deciding which byte sequences are well-formed DER
Ed25519 key documents (the DER parser itself is external to this
repository). -/
def from_der (derOk : List Nat → Bool) (key version : List Nat) :
    Option Ed25519KeyPair :=
  if derOk key then some ⟨key, version⟩ else none

/-- Modelled from the spec: `utils::generate_keypair` is not among the
provided sources; the spec says keypair creation generates a fresh Ed25519
keypair and persists it as `version || 0xFF || der_bytes`.  The fresh
version label and DER bytes are passed in as parameters. -/
def generate_keypair (version der : List Nat) : List Nat :=
  version ++ 255 :: der

/-- The `globals` tree as far as keypair loading touches it: the record
stored under the key `keypair`. -/
structure GlobalsStore where
  keypair : Option (List Nat)
  deriving DecidableEq, Repr

/-- Keypair parsing step of `Globals::load` (globals.rs lines 100-119):
split the record at the first `0xFF`, decode the first part as a UTF-8
version string, require a second part (the DER key bytes), and decode it
with `Ed25519KeyPair::from_der`, each failure mapped to the corresponding
`Error::bad_database` value. -/
def parseKeypair (derOk : List Nat → Bool) (bs : List Nat) :
    Except Error Ed25519KeyPair :=
  let parts := splitn2 bs
  match string_from_bytes parts.1 with
  | none => Except.error (Error.bad_database "Invalid version bytes in keypair.")
  | some version =>
    match parts.2 with
    | none => Except.error (Error.bad_database "Invalid keypair format in database.")
    | some key =>
      match from_der derOk key version with
      | none => Except.error (Error.bad_database "Private or public keys are invalid.")
      | some kp => Except.ok kp

/-- Keypair portion of `Globals::load` (globals.rs lines 91-128): read the
stored `keypair` record, generating, persisting and using fresh bytes when
it is absent; parse the bytes; on a parse failure delete the record and
return the error.  Returns the outcome together with the resulting state
of the `globals` tree.  `genVersion`/`genDer` stand for the fresh material
`utils::generate_keypair` would produce on this call. -/
def loadKeypair (derOk : List Nat → Bool) (genVersion genDer : List Nat)
    (store : GlobalsStore) : Except Error Ed25519KeyPair × GlobalsStore :=
  let loaded :=
    match store.keypair with
    | some s => (s, store)
    | none =>
      let fresh := generate_keypair genVersion genDer
      (fresh, { keypair := some fresh })
  match parseKeypair derOk loaded.1 with
  | Except.ok k => (Except.ok k, loaded.2)
  | Except.error e => (Except.error e, { keypair := none })

/-- Modelled from the tokio `broadcast` channel documentation (the channel
implementation is external to this repository; the spec describes it as
"broadcast semantics, not a queue"): each receiver has a queue of pending
pulses capped at the channel capacity (here 1, as in
`broadcast::channel(1)`; on overflow the oldest pulse is dropped), `send`
delivers one pulse to every receiver existing at that moment and reports an
error when there are none, and a receiver subscribed after a `send` starts
with an empty queue.  Receivers are identified by creation order. -/
structure BroadcastChannel where
  nextId : Nat
  subscribers : List (Nat × Nat)
  deriving DecidableEq, Repr

/-- Model of `broadcast::channel(1)`: one initial receiver (the one the
`RotationHandler` constructor stores in its second field) with no pending
pulses. -/
def BroadcastChannel.new : BroadcastChannel :=
  { nextId := 1, subscribers := [(0, 0)] }

/-- Model of `Sender::subscribe`: a fresh receiver with an empty pending
queue. -/
def BroadcastChannel.subscribe (c : BroadcastChannel) : Nat × BroadcastChannel :=
  (c.nextId,
   { nextId := c.nextId + 1, subscribers := (c.nextId, 0) :: c.subscribers })

/-- Model of `Sender::send(())`: an error when no receiver exists,
otherwise one pulse appended to the queue of every current receiver, capped at
the capacity of 1. -/
def BroadcastChannel.send (c : BroadcastChannel) :
    Except Unit Unit × BroadcastChannel :=
  if c.subscribers.isEmpty then (Except.error (), c)
  else
    (Except.ok (),
     { c with subscribers := c.subscribers.map fun p => (p.1, min (p.2 + 1) 1) })

/-- Model of `RotationHandler` (globals.rs lines 58-77): a broadcast
channel whose sender and initial receiver are both owned by the handler. -/
structure RotationHandler where
  channel : BroadcastChannel
  deriving DecidableEq, Repr

/-- Model of `RotationHandler::new` (globals.rs lines 61-64). -/
def RotationHandler.new : RotationHandler := ⟨BroadcastChannel.new⟩

/-- Model of `RotationHandler::watch` (globals.rs lines 66-72): subscribe a
fresh receiver; the returned future completes when that receiver obtains a
pulse. -/
def RotationHandler.watch (h : RotationHandler) : Nat × RotationHandler :=
  let s := h.channel.subscribe
  (s.1, ⟨s.2⟩)

/-- Model of `RotationHandler::fire` (globals.rs lines 74-76): send one
pulse and discard the `Result` (`let _ = self.0.send(())`), so a send with
no receivers is not a panic and leaves no trace. -/
def RotationHandler.fire (h : RotationHandler) : RotationHandler :=
  ⟨(h.channel.send).2⟩

/-- Pending pulse count of one receiver of a handler. -/
def pendingPulses (h : RotationHandler) (id : Nat) : Option Nat :=
  alookup h.channel.subscribers id

/-- The two kinds of mutual-exclusion primitive appearing in `Globals`:
`std::sync::Mutex` blocks the calling thread, `tokio::sync::Mutex` suspends
the task without blocking the thread. -/
inductive LockKind where
  | blocking
  | asyncSuspend
  deriving DecidableEq, Repr

/-- Primitive of `roomid_mutex_insert` (globals.rs line 49):
`RwLock<HashMap<Box<RoomId>, Arc<Mutex<()>>>>` with `std::sync::Mutex`. -/
def roomid_mutex_insert_kind : LockKind := LockKind.blocking

/-- Primitive of `roomid_mutex_state` (globals.rs line 50):
`RwLock<HashMap<Box<RoomId>, Arc<TokioMutex<()>>>>` with
`tokio::sync::Mutex`. -/
def roomid_mutex_state_kind : LockKind := LockKind.asyncSuspend

/-- Primitive of `roomid_mutex_federation` (globals.rs line 51):
`RwLock<HashMap<Box<RoomId>, Arc<TokioMutex<()>>>>` with
`tokio::sync::Mutex`. -/
def roomid_mutex_federation_kind : LockKind := LockKind.asyncSuspend

/-- Model of `ruma::api::client::typing::create_typing_event::v3::Typing`:
either typing with a duration (its `as_millis` value) or not typing. -/
inductive Typing where
  | yes : Nat → Typing
  | no : Typing
  deriving DecidableEq, Repr

/-- The parts of the typing request envelope the handler reads: the
authenticated sender (absent when authentication did not run), the room id
and the typing state. -/
structure TypingRequest where
  sender_user : Option String
  room_id : String
  state : Typing
  deriving DecidableEq, Repr

/-- Observable calls `create_typing_event_route` can make on shared state:
the two room-level typing mutations it delegates to, and acquisition of a
`Globals` room lock (`roomid_mutex_insert` / `_state` / `_federation`),
which the handler never performs. -/
inductive RouteEffect where
  | typingAdd (user room : String) (timeout : Nat)
  | typingRemove (user room : String)
  | lockAcquire (kind : LockKind) (room : String)
  deriving DecidableEq, Repr

/-- Value of 2 to the 64th power, the modulus of Rust `u64` arithmetic. -/
def u64Mod : Nat := 18446744073709551616

/-- Model of `create_typing_event_route` (typing.rs lines 7-29), modelled
from the spec where it calls collaborators outside the provided sources
(`utils::millis_since_unix_epoch` becomes the parameter `now`, a `u64`
millisecond count, and `typing_add` / `typing_remove` become effects in
the returned trace).  The `expect` on the authenticated sender is modelled
as `none`.  `duration.as_millis() as u64` truncates the `u128` millisecond
count to 64 bits and the addition is `u64` arithmetic, hence the `% u64Mod`.
On success the handler returns the empty response, modelled as `Unit`. -/
def create_typing_event_route (now : Nat) (body : TypingRequest) :
    Option (List RouteEffect × Unit) :=
  match body.sender_user with
  | none => none
  | some sender_user =>
    match body.state with
    | Typing.yes duration =>
      some ([RouteEffect.typingAdd sender_user body.room_id
               ((duration % u64Mod + now) % u64Mod)], ())
    | Typing.no =>
      some ([RouteEffect.typingRemove sender_user body.room_id], ())

/-- Model of the `resolve_fn` hook of the federation client (globals.rs lines
140-145): consult `tls_name_override` for the queried domain, and return a
socket address made of the first IP of the entry and the port of the entry; the
`?` operators make the hook return `None` when the domain has no entry or
the IP list of the entry is empty, in which case the client falls back to normal
DNS resolution.  IP addresses are opaque and modelled as `Nat`. -/
def resolve_fn (tls_name_override : List (String × (List Nat × Nat)))
    (domain : String) : Option (Nat × Nat) :=
  match alookup tls_name_override domain with
  | none => none
  | some entry =>
    match entry.1.head? with
    | none => none
    | some first_name => some (first_name, entry.2)

/-- The first option when it is populated, the second otherwise: the
lookup-level meaning of overwrite-on-collision. -/
def firstSome {V : Type} : Option V → Option V → Option V
  | some v, _ => some v
  | none, b => b

theorem alookup_aextend_eq {K V : Type} [DecidableEq K]
    (news m : List (K × V)) (k : K) (hnd : nodupKeys news) :
    alookup (aextend m news) k = firstSome (alookup news k) (alookup m k) := by
  cases h : alookup news k with
  | none => simp [firstSome, h, alookup_aextend_of_lookup_none news m k h]
  | some v => simp [firstSome, h, alookup_aextend_of_lookup_some news m k v hnd h]

theorem containsKey_map_val {K V W : Type} [DecidableEq K]
    (m : List (K × V)) (f : V → W) (k : K) :
    containsKey (m.map fun p => (p.1, f p.2)) k = containsKey m k := by
  cases h : alookup m k <;> simp [containsKey, alookup_map_val, h]

theorem keysTable_lookup_old (keys : ServerSigningKeys) (k : String)
    (ov : OldVerifyKey) (hnd : nodupKeys keys.old_verify_keys)
    (h : alookup keys.old_verify_keys k = some ov) :
    alookup (keysTable keys) k = some (VerifyKey.new ov.key) := by
  unfold keysTable
  apply alookup_aextend_of_lookup_some
  · exact nodupKeys_map_val keys.old_verify_keys (fun v => VerifyKey.new v.key) hnd
  · have hm := alookup_map_val keys.old_verify_keys (fun v => VerifyKey.new v.key) k
    rw [h] at hm
    simpa using hm

theorem hasSigningKeyId_applyKeyFetch (store : SigningKeyStore) (c : KeyFetch)
    (origin k : String) (h : hasSigningKeyId store origin k = true) :
    hasSigningKeyId (applyKeyFetch store c) origin k = true := by
  by_cases ho : origin = c.origin
  · subst ho
    cases hr : (alookup store c.origin).bind decodeSigningKeys with
    | none =>
      unfold hasSigningKeyId at h
      rw [hr] at h
      exact absurd h (by simp)
    | some r =>
      unfold hasSigningKeyId at h
      rw [hr] at h
      have hl : loadedSigningKeys store c.origin c.now = r := by
        unfold loadedSigningKeys
        rw [hr]
      unfold hasSigningKeyId applyKeyFetch addSigningKeyCore
      rw [alookup_ainsert_self]
      simp only [decodeSigningKeys, Option.some_bind]
      unfold mergeSigningKeys
      rw [hl]
      rcases Bool.or_eq_true_iff.mp h with hc | hc
      · simp [containsKey_aextend_mono _ _ _ hc]
      · simp [containsKey_aextend_mono _ _ _ hc]
  · unfold hasSigningKeyId applyKeyFetch addSigningKeyCore
    rw [alookup_ainsert_ne _ _ _ _ ho]
    exact h

theorem applyKeyFetches_cons (c : KeyFetch) (rest : List KeyFetch)
    (store : SigningKeyStore) :
    applyKeyFetches (c :: rest) store = applyKeyFetches rest (applyKeyFetch store c) := by
  simp [applyKeyFetches]

/-- C1: for every origin and every sequence of `add_signing_key` calls, the
key set of the persisted trust record (current plus historical key ids, read
back through deserialization) after any extended sequence of calls is a
superset of the key set after any prefix of it: merges only extend the
stored maps, so no key id ever disappears.  This holds without any
assumption on the initial store, because a record whose bytes do not
deserialize contributes an empty key set. -/
theorem C1_signing_keys_monotonic (store : SigningKeyStore)
    (pre suf : List KeyFetch) (origin k : String)
    (h : hasSigningKeyId (applyKeyFetches pre store) origin k = true) :
    hasSigningKeyId (applyKeyFetches (pre ++ suf) store) origin k = true := by
  have hsplit : applyKeyFetches (pre ++ suf) store =
      applyKeyFetches suf (applyKeyFetches pre store) := by
    simp [applyKeyFetches, List.foldl_append]
  rw [hsplit]
  generalize hst : applyKeyFetches pre store = st at h
  clear hsplit hst
  induction suf generalizing st with
  | nil => simpa [applyKeyFetches] using h
  | cons c rest ih =>
    rw [applyKeyFetches_cons]
    exact ih (applyKeyFetch st c) (hasSigningKeyId_applyKeyFetch st c origin k h)

/-- Witness for C1 at a concrete sequence: after fetching key id `k1` for
origin `o` and then fetching a disjoint key id `k2` for the same origin,
`k1` is still in the persisted record. -/
theorem C1_signing_keys_monotonic_witness :
    hasSigningKeyId
      (applyKeyFetches
        ([⟨"o", 1, ⟨"o", [("k1", VerifyKey.new "a")], [], 1⟩⟩] ++
         [⟨"o", 2, ⟨"o", [("k2", VerifyKey.new "b")], [], 2⟩⟩]) [])
      "o" "k1" = true :=
  C1_signing_keys_monotonic []
    [⟨"o", 1, ⟨"o", [("k1", VerifyKey.new "a")], [], 1⟩⟩]
    [⟨"o", 2, ⟨"o", [("k2", VerifyKey.new "b")], [], 2⟩⟩]
    "o" "k1" (by decide)

/-- C4: for every origin with no stored trust record, `signing_keys_for`
returns `Ok` with an empty mapping, not an error. -/
theorem C4_signing_keys_for_absent_empty (store : SigningKeyStore)
    (origin : String) (h : alookup store origin = none) :
    signing_keys_for store origin = Except.ok [] := by
  simp [signing_keys_for, h]

/-- Witness for C4: a store with no record at all. -/
theorem C4_signing_keys_for_absent_empty_witness :
    signing_keys_for [] "example.org" = Except.ok [] :=
  C4_signing_keys_for_absent_empty [] "example.org" rfl

/-- C2: `add_signing_key` loads the existing record for the origin (a
fresh record stamped with the current time when none decodes), extends
`verify_keys` and `old_verify_keys` by union over key ids with the fetched
entry winning on a conflicting id, persists the merged record, and returns
the union of current and historical keys as one lookup table.  The
fetched maps come from a `BTreeMap`, hence the distinct-keys hypotheses. -/
theorem C2_add_signing_key_merges (store : SigningKeyStore) (origin : String)
    (now : Nat) (nk : ServerSigningKeys)
    (h1 : nodupKeys nk.verify_keys) (h2 : nodupKeys nk.old_verify_keys) :
    ∃ st tbl,
      add_signing_key store origin now nk = Except.ok (st, tbl) ∧
      ((alookup store origin).bind decodeSigningKeys = none →
        loadedSigningKeys store origin now = ServerSigningKeys.new origin now) ∧
      (∀ r, (alookup store origin).bind decodeSigningKeys = some r →
        loadedSigningKeys store origin now = r) ∧
      alookup st origin =
        some (StoredBytes.good (mergeSigningKeys (loadedSigningKeys store origin now) nk)) ∧
      (∀ k, alookup (mergeSigningKeys (loadedSigningKeys store origin now) nk).verify_keys k =
        firstSome (alookup nk.verify_keys k)
          (alookup (loadedSigningKeys store origin now).verify_keys k)) ∧
      (∀ k, alookup (mergeSigningKeys (loadedSigningKeys store origin now) nk).old_verify_keys k =
        firstSome (alookup nk.old_verify_keys k)
          (alookup (loadedSigningKeys store origin now).old_verify_keys k)) ∧
      (∀ k, containsKey tbl k = true ↔
        (containsKey (mergeSigningKeys (loadedSigningKeys store origin now) nk).verify_keys k = true ∨
         containsKey (mergeSigningKeys (loadedSigningKeys store origin now) nk).old_verify_keys k = true)) := by
  refine ⟨(addSigningKeyCore store origin now nk).1, (addSigningKeyCore store origin now nk).2,
    rfl, ?_, ?_, ?_, ?_, ?_, ?_⟩
  · intro h
    unfold loadedSigningKeys
    rw [h]
  · intro r h
    unfold loadedSigningKeys
    rw [h]
  · unfold addSigningKeyCore
    exact alookup_ainsert_self store origin _
  · intro k
    simp only [mergeSigningKeys]
    exact alookup_aextend_eq nk.verify_keys
      (loadedSigningKeys store origin now).verify_keys k h1
  · intro k
    simp only [mergeSigningKeys]
    exact alookup_aextend_eq nk.old_verify_keys
      (loadedSigningKeys store origin now).old_verify_keys k h2
  · intro k
    unfold addSigningKeyCore keysTable
    rw [containsKey_aextend_iff]
    rw [containsKey_map_val (mergeSigningKeys (loadedSigningKeys store origin now) nk).old_verify_keys
      (fun v => VerifyKey.new v.key) k]

/-- Witness for C2: one fetch of a current key `k1` and a historical key
`k2` for origin `o` against an empty store. -/
theorem C2_add_signing_key_merges_witness :
    ∃ st tbl,
      add_signing_key [] "o" 5 ⟨"o", [("k1", VerifyKey.new "v1")], [("k2", ⟨1, "v2"⟩)], 9⟩ =
        Except.ok (st, tbl) ∧
      ((alookup ([] : SigningKeyStore) "o").bind decodeSigningKeys = none →
        loadedSigningKeys [] "o" 5 = ServerSigningKeys.new "o" 5) ∧
      (∀ r, (alookup ([] : SigningKeyStore) "o").bind decodeSigningKeys = some r →
        loadedSigningKeys [] "o" 5 = r) ∧
      alookup st "o" =
        some (StoredBytes.good (mergeSigningKeys (loadedSigningKeys [] "o" 5)
          ⟨"o", [("k1", VerifyKey.new "v1")], [("k2", ⟨1, "v2"⟩)], 9⟩)) ∧
      (∀ k, alookup (mergeSigningKeys (loadedSigningKeys [] "o" 5)
          ⟨"o", [("k1", VerifyKey.new "v1")], [("k2", ⟨1, "v2"⟩)], 9⟩).verify_keys k =
        firstSome (alookup [("k1", VerifyKey.new "v1")] k)
          (alookup (loadedSigningKeys [] "o" 5).verify_keys k)) ∧
      (∀ k, alookup (mergeSigningKeys (loadedSigningKeys [] "o" 5)
          ⟨"o", [("k1", VerifyKey.new "v1")], [("k2", ⟨1, "v2"⟩)], 9⟩).old_verify_keys k =
        firstSome (alookup [("k2", (⟨1, "v2"⟩ : OldVerifyKey))] k)
          (alookup (loadedSigningKeys [] "o" 5).old_verify_keys k)) ∧
      (∀ k, containsKey tbl k = true ↔
        (containsKey (mergeSigningKeys (loadedSigningKeys [] "o" 5)
          ⟨"o", [("k1", VerifyKey.new "v1")], [("k2", ⟨1, "v2"⟩)], 9⟩).verify_keys k = true ∨
         containsKey (mergeSigningKeys (loadedSigningKeys [] "o" 5)
          ⟨"o", [("k1", VerifyKey.new "v1")], [("k2", ⟨1, "v2"⟩)], 9⟩).old_verify_keys k = true)) :=
  C2_add_signing_key_merges [] "o" 5 ⟨"o", [("k1", VerifyKey.new "v1")], [("k2", ⟨1, "v2"⟩)], 9⟩
    (by decide) (by decide)

/-- C5 counterexample: a store where the trust record for origin `a` is
present but fails JSON deserialization.  Both `signing_keys_for` and
`add_signing_key` return `Ok` — silently treating the record as absent —
instead of surfacing an error as the claim states. -/
theorem C5_decode_failure_not_surfaced_counterexample :
    signing_keys_for [("a", StoredBytes.bad)] "a" = Except.ok [] ∧
    add_signing_key [("a", StoredBytes.bad)] "a" 7 (ServerSigningKeys.new "a" 7) =
      Except.ok ([("a", StoredBytes.good (ServerSigningKeys.new "a" 7))], []) := by
  constructor
  · rfl
  · rfl

/-- C5 amended: a present trust record whose bytes fail deserialization is
silently treated as absent, not surfaced as an error: `signing_keys_for`
returns `Ok` with an empty mapping and `add_signing_key` returns `Ok`,
starting a fresh record stamped with the current time and merging the
fetched keys into it. -/
theorem C5_decode_failure_treated_as_absent (store : SigningKeyStore)
    (origin : String) (now : Nat) (nk : ServerSigningKeys)
    (h : alookup store origin = some StoredBytes.bad) :
    signing_keys_for store origin = Except.ok [] ∧
    add_signing_key store origin now nk =
      Except.ok (ainsert store origin
          (StoredBytes.good (mergeSigningKeys (ServerSigningKeys.new origin now) nk)),
        keysTable (mergeSigningKeys (ServerSigningKeys.new origin now) nk)) := by
  constructor
  · simp [signing_keys_for, h, decodeSigningKeys]
  · simp [add_signing_key, addSigningKeyCore, loadedSigningKeys, h, decodeSigningKeys]

/-- Witness for the amended C5 at a concrete undecodable record. -/
theorem C5_decode_failure_treated_as_absent_witness :
    signing_keys_for [("b", StoredBytes.bad)] "b" = Except.ok [] ∧
    add_signing_key [("b", StoredBytes.bad)] "b" 3 (ServerSigningKeys.new "b" 3) =
      Except.ok (ainsert [("b", StoredBytes.bad)] "b"
          (StoredBytes.good (mergeSigningKeys (ServerSigningKeys.new "b" 3)
            (ServerSigningKeys.new "b" 3))),
        keysTable (mergeSigningKeys (ServerSigningKeys.new "b" 3)
          (ServerSigningKeys.new "b" 3))) :=
  C5_decode_failure_treated_as_absent [("b", StoredBytes.bad)] "b" 3
    (ServerSigningKeys.new "b" 3) rfl

/-- C9: in the merged key table returned by `add_signing_key` and by
`signing_keys_for`, a key id present in both `verify_keys` and
`old_verify_keys` of the relevant record is mapped to the historical
(`old_verify_keys`) key, because the historical entries are inserted into
the table after the current ones and overwrite on collision. -/
theorem C9_old_keys_win_in_merged_table (store : SigningKeyStore)
    (origin : String) (now : Nat) (nk : ServerSigningKeys) (k : String)
    (ov : OldVerifyKey) :
    ((nodupKeys (mergeSigningKeys (loadedSigningKeys store origin now) nk).old_verify_keys →
      containsKey (mergeSigningKeys (loadedSigningKeys store origin now) nk).verify_keys k = true →
      alookup (mergeSigningKeys (loadedSigningKeys store origin now) nk).old_verify_keys k = some ov →
      add_signing_key store origin now nk =
        Except.ok (ainsert store origin
            (StoredBytes.good (mergeSigningKeys (loadedSigningKeys store origin now) nk)),
          keysTable (mergeSigningKeys (loadedSigningKeys store origin now) nk)) ∧
      alookup (keysTable (mergeSigningKeys (loadedSigningKeys store origin now) nk)) k =
        some (VerifyKey.new ov.key)) ∧
     (∀ r, alookup store origin = some (StoredBytes.good r) →
      nodupKeys r.old_verify_keys →
      containsKey r.verify_keys k = true →
      alookup r.old_verify_keys k = some ov →
      signing_keys_for store origin = Except.ok (keysTable r) ∧
      alookup (keysTable r) k = some (VerifyKey.new ov.key))) := by
  constructor
  · intro hnd _ ho
    exact ⟨rfl, keysTable_lookup_old _ k ov hnd ho⟩
  · intro r hr hnd _ ho
    constructor
    · simp [signing_keys_for, hr, decodeSigningKeys]
    · exact keysTable_lookup_old r k ov hnd ho

/-- Witness for C9: origin `o` stores key id `k` both as a current key
(material `cur`) and as a historical key (material `old`); both lookups
return the historical material. -/
theorem C9_old_keys_win_in_merged_table_witness :
    (add_signing_key [("o", StoredBytes.good ⟨"o", [("k", VerifyKey.new "cur")], [("k", ⟨5, "old"⟩)], 0⟩)]
        "o" 0 (ServerSigningKeys.new "o" 0) =
      Except.ok (ainsert [("o", StoredBytes.good ⟨"o", [("k", VerifyKey.new "cur")], [("k", ⟨5, "old"⟩)], 0⟩)]
          "o" (StoredBytes.good (mergeSigningKeys
            (loadedSigningKeys [("o", StoredBytes.good ⟨"o", [("k", VerifyKey.new "cur")], [("k", ⟨5, "old"⟩)], 0⟩)] "o" 0)
            (ServerSigningKeys.new "o" 0))),
        keysTable (mergeSigningKeys
          (loadedSigningKeys [("o", StoredBytes.good ⟨"o", [("k", VerifyKey.new "cur")], [("k", ⟨5, "old"⟩)], 0⟩)] "o" 0)
          (ServerSigningKeys.new "o" 0))) ∧
     alookup (keysTable (mergeSigningKeys
         (loadedSigningKeys [("o", StoredBytes.good ⟨"o", [("k", VerifyKey.new "cur")], [("k", ⟨5, "old"⟩)], 0⟩)] "o" 0)
         (ServerSigningKeys.new "o" 0))) "k" =
       some (VerifyKey.new "old")) ∧
    (signing_keys_for [("o", StoredBytes.good ⟨"o", [("k", VerifyKey.new "cur")], [("k", ⟨5, "old"⟩)], 0⟩)] "o" =
      Except.ok (keysTable ⟨"o", [("k", VerifyKey.new "cur")], [("k", ⟨5, "old"⟩)], 0⟩) ∧
     alookup (keysTable ⟨"o", [("k", VerifyKey.new "cur")], [("k", ⟨5, "old"⟩)], 0⟩) "k" =
       some (VerifyKey.new "old")) :=
  ⟨(C9_old_keys_win_in_merged_table
      [("o", StoredBytes.good ⟨"o", [("k", VerifyKey.new "cur")], [("k", ⟨5, "old"⟩)], 0⟩)]
      "o" 0 (ServerSigningKeys.new "o" 0) "k" ⟨5, "old"⟩).1
      (by decide) (by decide) (by decide),
   (C9_old_keys_win_in_merged_table
      [("o", StoredBytes.good ⟨"o", [("k", VerifyKey.new "cur")], [("k", ⟨5, "old"⟩)], 0⟩)]
      "o" 0 (ServerSigningKeys.new "o" 0) "k" ⟨5, "old"⟩).2
      ⟨"o", [("k", VerifyKey.new "cur")], [("k", ⟨5, "old"⟩)], 0⟩
      rfl (by decide) (by decide) (by decide)⟩

theorem splitn2_append (gv gd : List Nat) (h : 255 ∉ gv) :
    splitn2 (gv ++ 255 :: gd) = (gv, some gd) := by
  induction gv with
  | nil => simp [splitn2]
  | cons b rest ih =>
    simp only [List.mem_cons] at h
    push_neg at h
    simp [splitn2, Ne.symm h.1, ih h.2]

/-- C3: a stored keypair record that fails to parse (invalid UTF-8 version
bytes, missing `0xFF` separator, or DER decode failure) makes keypair
loading delete the record and fail with that error, leaving nothing
persisted in its place; a subsequent call on the now-empty store generates
a fresh keypair, persists it as `version || 0xFF || der`, and returns it
successfully (assuming the fresh version label is valid UTF-8 without a
`0xFF` byte and the fresh DER bytes are well-formed, which the Ed25519
generator guarantees). -/
theorem C3_corrupt_keypair_deleted_then_regenerated
    (derOk : List Nat → Bool) (genVersion genDer : List Nat)
    (store : GlobalsStore) :
    (∀ bs e, store.keypair = some bs → parseKeypair derOk bs = Except.error e →
      loadKeypair derOk genVersion genDer store = (Except.error e, ⟨none⟩)) ∧
    (store.keypair = none → utf8Valid genVersion = true → 255 ∉ genVersion →
      derOk genDer = true →
      loadKeypair derOk genVersion genDer store =
        (Except.ok ⟨genDer, genVersion⟩, ⟨some (genVersion ++ 255 :: genDer)⟩)) := by
  constructor
  · intro bs e hb hp
    unfold loadKeypair
    rw [hb]
    simp only
    rw [hp]
  · intro h0 h1 h2 h3
    unfold loadKeypair
    rw [h0]
    simp only [generate_keypair]
    unfold parseKeypair
    rw [splitn2_append genVersion genDer h2]
    simp [string_from_bytes, h1, from_der, h3]

/-- Witness for C3: the one-byte record `0x61` has no `0xFF` separator, so
loading deletes it and fails with the keypair-format error; on the emptied
store a fresh pair with version `0x61` and DER bytes `[1, 2]` is
generated, persisted as `version || 0xFF || der`, and returned. -/
theorem C3_corrupt_keypair_deleted_then_regenerated_witness :
    loadKeypair (fun _ => true) [97] [1, 2] ⟨some [97]⟩ =
      (Except.error (Error.bad_database "Invalid keypair format in database."), ⟨none⟩) ∧
    loadKeypair (fun _ => true) [97] [1, 2] ⟨none⟩ =
      (Except.ok ⟨[1, 2], [97]⟩, ⟨some ([97] ++ 255 :: [1, 2])⟩) :=
  ⟨(C3_corrupt_keypair_deleted_then_regenerated (fun _ => true) [97] [1, 2] ⟨some [97]⟩).1
      [97] (Error.bad_database "Invalid keypair format in database.") rfl rfl,
   (C3_corrupt_keypair_deleted_then_regenerated (fun _ => true) [97] [1, 2] ⟨none⟩).2
      rfl rfl (by decide) rfl⟩

/-- C6 counterexample: the claim says the insert and state handles are both
blocking primitives and the federation handle an async one, but
`roomid_mutex_state` holds `tokio::sync::Mutex` handles, an
async (suspend-without-blocking) primitive. -/
theorem C6_lock_kinds_counterexample :
    ¬(roomid_mutex_insert_kind = LockKind.blocking ∧
      roomid_mutex_state_kind = LockKind.blocking ∧
      roomid_mutex_federation_kind = LockKind.asyncSuspend) := by
  decide

/-- C6 amended: the insert handles are ordinary blocking mutexes
(`std::sync::Mutex`), while both the state and the federation handles are
suspend-without-blocking (tokio) mutexes. -/
theorem C6_lock_kinds :
    roomid_mutex_insert_kind = LockKind.blocking ∧
    roomid_mutex_state_kind = LockKind.asyncSuspend ∧
    roomid_mutex_federation_kind = LockKind.asyncSuspend := by
  decide

/-- C7: `fire` with no active `watch` subscriber does not panic (the send
error is discarded and the state is unchanged), and it does not affect a
subscriber that registers afterward: for any handler state, a receiver
subscribed after a `fire` has no pending pulse — it waits for the next
`fire`, after which it has exactly one. -/
theorem C7_fire_without_subscribers (h : RotationHandler) :
    (h.channel.subscribers = [] → h.fire = h) ∧
    pendingPulses (h.fire.watch).2 (h.fire.watch).1 = some 0 ∧
    pendingPulses ((h.fire.watch).2.fire) (h.fire.watch).1 = some 1 := by
  refine ⟨?_, ?_, ?_⟩
  · intro he
    simp [RotationHandler.fire, BroadcastChannel.send, he]
  · by_cases hc : h.channel.subscribers.isEmpty <;>
      simp [RotationHandler.fire, RotationHandler.watch, BroadcastChannel.send,
        BroadcastChannel.subscribe, pendingPulses, alookup, hc]
  · by_cases hc : h.channel.subscribers.isEmpty <;>
      simp [RotationHandler.fire, RotationHandler.watch, BroadcastChannel.send,
        BroadcastChannel.subscribe, pendingPulses, alookup, hc]

/-- Witness for C7: a handler with an empty subscriber list (both the
initial receiver and every watcher dropped) and the fresh handler. -/
theorem C7_fire_without_subscribers_witness :
    ((⟨⟨3, []⟩⟩ : RotationHandler).fire = ⟨⟨3, []⟩⟩) ∧
    pendingPulses (RotationHandler.new.fire.watch).2
      (RotationHandler.new.fire.watch).1 = some 0 ∧
    pendingPulses ((RotationHandler.new.fire.watch).2.fire)
      (RotationHandler.new.fire.watch).1 = some 1 :=
  ⟨(C7_fire_without_subscribers ⟨⟨3, []⟩⟩).1 rfl,
   (C7_fire_without_subscribers RotationHandler.new).2.1,
   (C7_fire_without_subscribers RotationHandler.new).2.2⟩

/-- C8: the typing route reads the authenticated sender from the request
envelope and delegates: `Typing::Yes(duration)` leads to exactly one
`typing_add` with expiry `duration + now` milliseconds (with `u64`
truncation immaterial when the sum fits), anything else to exactly one
`typing_remove`; on success the response is empty, and the handler never
acquires a `Globals` room lock. -/
theorem C8_typing_route_delegates (now : Nat) (body : TypingRequest)
    (u : String) (hu : body.sender_user = some u) :
    (∀ d, body.state = Typing.yes d → d + now < u64Mod →
      create_typing_event_route now body =
        some ([RouteEffect.typingAdd u body.room_id (d + now)], ())) ∧
    (body.state = Typing.no →
      create_typing_event_route now body =
        some ([RouteEffect.typingRemove u body.room_id], ())) ∧
    (∀ effs r, create_typing_event_route now body = some (effs, r) →
      ∀ kind room, RouteEffect.lockAcquire kind room ∉ effs) := by
  refine ⟨?_, ?_, ?_⟩
  · intro d hd hlt
    have hm : d % u64Mod = d :=
      Nat.mod_eq_of_lt (lt_of_le_of_lt (Nat.le_add_right d now) hlt)
    simp [create_typing_event_route, hu, hd, hm, Nat.mod_eq_of_lt hlt]
  · intro hd
    simp [create_typing_event_route, hu, hd]
  · intro effs r hr kind room
    cases hs : body.state with
    | yes d =>
      simp [create_typing_event_route, hu, hs] at hr
      simp [← hr]
    | no =>
      simp [create_typing_event_route, hu, hs] at hr
      simp [← hr]

/-- Witness for C8: a typing start of 5 ms at time 10 and a typing stop. -/
theorem C8_typing_route_delegates_witness :
    create_typing_event_route 10 ⟨some "alice", "room1", Typing.yes 5⟩ =
      some ([RouteEffect.typingAdd "alice" "room1" 15], ()) ∧
    create_typing_event_route 10 ⟨some "alice", "room1", Typing.no⟩ =
      some ([RouteEffect.typingRemove "alice" "room1"], ()) :=
  ⟨(C8_typing_route_delegates 10 ⟨some "alice", "room1", Typing.yes 5⟩ "alice" rfl).1
      5 rfl (by decide),
   (C8_typing_route_delegates 10 ⟨some "alice", "room1", Typing.no⟩ "alice" rfl).2.1 rfl⟩

/-- C10: the name-resolution hook of the federation client returns an override
address exactly when `tls_name_override` has an entry for the queried
domain with a non-empty IP list, in which case the address is the first IP
of the list paired with the port of the entry; a missing entry or an empty IP
list yields `None` (falling back to normal DNS). -/
theorem C10_resolve_fn_override (m : List (String × (List Nat × Nat)))
    (d : String) :
    (∀ ip port, resolve_fn m d = some (ip, port) ↔
      ∃ ips, alookup m d = some (ips, port) ∧ ips.head? = some ip) ∧
    (alookup m d = none → resolve_fn m d = none) ∧
    (∀ port, alookup m d = some ([], port) → resolve_fn m d = none) := by
  refine ⟨?_, ?_, ?_⟩
  · intro ip port
    constructor
    · intro h
      cases hl : alookup m d with
      | none => simp [resolve_fn, hl] at h
      | some entry =>
        obtain ⟨ips, prt⟩ := entry
        cases hh : ips.head? with
        | none =>
          simp only [resolve_fn, hl] at h
          simp only [hh] at h
          simp at h
        | some ip0 =>
          simp only [resolve_fn, hl] at h
          simp only [hh] at h
          injection h with h2
          injection h2 with ha hb
          refine ⟨ips, ?_, ?_⟩
          · rw [hb]
          · rw [hh, ha]
    · rintro ⟨ips, hl, hh⟩
      unfold resolve_fn
      rw [hl]
      simp [hh]
  · intro h
    unfold resolve_fn
    rw [h]
  · intro port h
    unfold resolve_fn
    rw [h]
    rfl

/-- Witness for C10: an entry with first IP 7 and port 44 is used; a
missing domain and an entry with an empty IP list both fall through. -/
theorem C10_resolve_fn_override_witness :
    resolve_fn [("pinned", ([7, 8], 44))] "pinned" = some (7, 44) ∧
    resolve_fn [("pinned", ([7, 8], 44))] "other" = none ∧
    resolve_fn [("empty", ([], 9))] "empty" = none :=
  ⟨((C10_resolve_fn_override [("pinned", ([7, 8], 44))] "pinned").1 7 44).mpr
      ⟨[7, 8], by decide, rfl⟩,
   (C10_resolve_fn_override [("pinned", ([7, 8], 44))] "other").2.1 (by decide),
   (C10_resolve_fn_override [("empty", ([], 9))] "empty").2.2 9 (by decide)⟩

end Conduit
